import Mathlib

/-!
Verification of the pymtpfs translation layer (src/pymtpfs/pymtpfs.py,
src/pymtpfs/mtp.py, src/pymtpfs/lru.py) against its natural-language
specification.  Python strings are modelled as `List Char`, byte buffers as
`List Nat`, errno values as `Int`, and the opaque libmtp/OS interactions of
each operation as an explicit environment record describing the outcome of
every external call the operation makes.
-/

namespace Pymtpfs

/-! ### errno constants (Linux values, as used via Python's `errno` module) -/

def ENOENT : Int := 2
def EINTR : Int := 4
def EIO : Int := 5
def EBADF : Int := 9
def EEXIST : Int := 17
def ENOTDIR : Int := 20
def EISDIR : Int := 21
def ENOTEMPTY : Int := 39

/-! ### Path sanitisation (pymtpfs.py: `BAD_FILENAME_CHARS`, `fix_path`)

`fix_path(path)` checks whether any character of `path` lies in
`BAD_FILENAME_CHARS = set(":*?\"<>|")` and, if so, runs
`newpath = newpath.replace(ch, '-')` for each such character.  The final
`utf8(path)` call is the identity on an already-decoded string and is not
modelled. -/

def BAD_FILENAME_CHARS : List Char := [':', '*', '?', '"', '<', '>', '|']

/-- Python `str.replace(ch, '-')`: replace every occurrence of `ch`. -/
def strReplace (ch rep : Char) (s : List Char) : List Char :=
  s.map (fun x => if x = ch then rep else x)

/-- The function `fix_path` from pymtpfs.py (lines 707-715). -/
def fix_path (path : List Char) : List Char :=
  if path.any (fun c => BAD_FILENAME_CHARS.contains c) then
    BAD_FILENAME_CHARS.foldl (fun acc ch => strReplace ch '-' acc) path
  else
    path

/-! ### File-type table (mtp.py: class `MTPType`)

`MTPType` defines the libmtp filetype enumeration as integer constants and a
`dict` literal mapping extensions to codes.  The Python dict literal repeats
the key `'ogg'` (`'ogg': LIBMTP_FILETYPE_OGG` early, then
`'ogg': LIBMTP_FILETYPE_AUDIBLE` in the last line); under Python semantics
the later binding wins.  `entries` below lists the literal's key/value pairs
in source order and `dictGet` resolves a key the way dict construction does:
the last occurrence of a key gives its value. -/

namespace MTPType

def LIBMTP_FILETYPE_FOLDER : Nat := 0
def LIBMTP_FILETYPE_WAV : Nat := LIBMTP_FILETYPE_FOLDER + 1
def LIBMTP_FILETYPE_MP3 : Nat := LIBMTP_FILETYPE_FOLDER + 2
def LIBMTP_FILETYPE_WMA : Nat := LIBMTP_FILETYPE_FOLDER + 3
def LIBMTP_FILETYPE_OGG : Nat := LIBMTP_FILETYPE_FOLDER + 4
def LIBMTP_FILETYPE_AUDIBLE : Nat := LIBMTP_FILETYPE_FOLDER + 5
def LIBMTP_FILETYPE_MP4 : Nat := LIBMTP_FILETYPE_FOLDER + 6
def LIBMTP_FILETYPE_UNDEF_AUDIO : Nat := LIBMTP_FILETYPE_FOLDER + 7
def LIBMTP_FILETYPE_WMV : Nat := LIBMTP_FILETYPE_FOLDER + 8
def LIBMTP_FILETYPE_AVI : Nat := LIBMTP_FILETYPE_FOLDER + 9
def LIBMTP_FILETYPE_MPEG : Nat := LIBMTP_FILETYPE_FOLDER + 10
def LIBMTP_FILETYPE_ASF : Nat := LIBMTP_FILETYPE_FOLDER + 11
def LIBMTP_FILETYPE_QT : Nat := LIBMTP_FILETYPE_FOLDER + 12
def LIBMTP_FILETYPE_JPEG : Nat := LIBMTP_FILETYPE_FOLDER + 14
def LIBMTP_FILETYPE_JFIF : Nat := LIBMTP_FILETYPE_FOLDER + 15
def LIBMTP_FILETYPE_TIFF : Nat := LIBMTP_FILETYPE_FOLDER + 16
def LIBMTP_FILETYPE_BMP : Nat := LIBMTP_FILETYPE_FOLDER + 17
def LIBMTP_FILETYPE_GIF : Nat := LIBMTP_FILETYPE_FOLDER + 18
def LIBMTP_FILETYPE_PICT : Nat := LIBMTP_FILETYPE_FOLDER + 19
def LIBMTP_FILETYPE_PNG : Nat := LIBMTP_FILETYPE_FOLDER + 20
def LIBMTP_FILETYPE_TEXT : Nat := LIBMTP_FILETYPE_FOLDER + 27
def LIBMTP_FILETYPE_HTML : Nat := LIBMTP_FILETYPE_FOLDER + 28
def LIBMTP_FILETYPE_AAC : Nat := LIBMTP_FILETYPE_FOLDER + 30
def LIBMTP_FILETYPE_FLAC : Nat := LIBMTP_FILETYPE_FOLDER + 32
def LIBMTP_FILETYPE_MP2 : Nat := LIBMTP_FILETYPE_FOLDER + 33
def LIBMTP_FILETYPE_M4A : Nat := LIBMTP_FILETYPE_FOLDER + 34
def LIBMTP_FILETYPE_DOC : Nat := LIBMTP_FILETYPE_FOLDER + 35
def LIBMTP_FILETYPE_XML : Nat := LIBMTP_FILETYPE_FOLDER + 36
def LIBMTP_FILETYPE_XLS : Nat := LIBMTP_FILETYPE_FOLDER + 37
def LIBMTP_FILETYPE_PPT : Nat := LIBMTP_FILETYPE_FOLDER + 38
def LIBMTP_FILETYPE_MHT : Nat := LIBMTP_FILETYPE_FOLDER + 39
def LIBMTP_FILETYPE_JP2 : Nat := LIBMTP_FILETYPE_FOLDER + 40
def LIBMTP_FILETYPE_JPX : Nat := LIBMTP_FILETYPE_FOLDER + 41
def LIBMTP_FILETYPE_UNKNOWN : Nat := LIBMTP_FILETYPE_FOLDER + 44

/-- The key/value pairs of the `MTPType.dict` literal, in source order
(mtp.py lines 217-232).  Note the two bindings for `'ogg'`. -/
def entries : List (String × Nat) :=
  [("wav", LIBMTP_FILETYPE_WAV), ("mp3", LIBMTP_FILETYPE_MP3), ("wma", LIBMTP_FILETYPE_WMA),
   ("ogg", LIBMTP_FILETYPE_OGG),
   ("mp4", LIBMTP_FILETYPE_MP4), ("wmv", LIBMTP_FILETYPE_WMV), ("avi", LIBMTP_FILETYPE_AVI),
   ("mpeg", LIBMTP_FILETYPE_MPEG),
   ("asf", LIBMTP_FILETYPE_ASF), ("qt", LIBMTP_FILETYPE_QT), ("jpeg", LIBMTP_FILETYPE_JPEG),
   ("jfif", LIBMTP_FILETYPE_JFIF),
   ("tiff", LIBMTP_FILETYPE_TIFF), ("bmp", LIBMTP_FILETYPE_BMP), ("gif", LIBMTP_FILETYPE_GIF),
   ("pict", LIBMTP_FILETYPE_PICT),
   ("png", LIBMTP_FILETYPE_PNG), ("text", LIBMTP_FILETYPE_TEXT), ("txt", LIBMTP_FILETYPE_TEXT),
   ("html", LIBMTP_FILETYPE_HTML),
   ("aac", LIBMTP_FILETYPE_AAC), ("flac", LIBMTP_FILETYPE_FLAC), ("mp2", LIBMTP_FILETYPE_MP2),
   ("m4a", LIBMTP_FILETYPE_M4A),
   ("doc", LIBMTP_FILETYPE_DOC), ("xml", LIBMTP_FILETYPE_XML), ("xls", LIBMTP_FILETYPE_XLS),
   ("ppt", LIBMTP_FILETYPE_PPT),
   ("mht", LIBMTP_FILETYPE_MHT), ("jp2", LIBMTP_FILETYPE_JP2), ("jpx", LIBMTP_FILETYPE_JPX),
   ("ogg", LIBMTP_FILETYPE_AUDIBLE), ("ape", LIBMTP_FILETYPE_AUDIBLE)]

/-- Python `MTPType.dict.get(k, d)`: the dict built from the literal maps each key to
its LAST binding (later duplicate keys overwrite earlier ones), with default
`d` for absent keys. -/
def dictGet (k : String) (d : Nat) : Nat :=
  (entries.foldl (fun acc e => if e.1 = k then some e.2 else acc) none).getD d

/-- Python `rfind` over a character list: index of the last occurrence of `c`, or
`-1` when absent (Python `str.rfind`). -/
def rfindIdx (s : List Char) (c : Char) : Int :=
  (List.range s.length).foldl
    (fun acc i => if s.get? i = some c then (i : Int) else acc) (-1)

/-- Python `os.path.splitext(p)[1]` for POSIX paths: the extension (including its
dot) of the final path component, where leading dots of the component do not
start an extension.  Mirrors CPython `posixpath.splitext`:
`sepIndex = p.rfind('/'); dotIndex = p.rfind('.'); if dotIndex > sepIndex`
and some character strictly between them differs from `'.'`, the extension is
`p[dotIndex:]`, otherwise it is empty. -/
def splitextExt (p : List Char) : List Char :=
  let sepIndex := rfindIdx p '/'
  let dotIndex := rfindIdx p '.'
  if sepIndex < dotIndex then
    let between := (p.drop (sepIndex + 1).toNat).take (dotIndex - sepIndex - 1).toNat
    if between.any (fun c => c ≠ '.') then p.drop dotIndex.toNat else []
  else []

/-- The function `MTPType.filetype(path)` (mtp.py lines 234-237):
`ext = os.path.splitext(path)[1].lower()[1:]` then
`MTPType.dict.get(ext, LIBMTP_FILETYPE_UNKNOWN)`. -/
def filetype (path : List Char) : Nat :=
  let ext : List Char := ((splitextExt path).map Char.toLower).drop 1
  dictGet (String.mk ext) LIBMTP_FILETYPE_UNKNOWN

end MTPType

/-- Modelled from the spec (§6.2): the fixed extension table, reading "that
extension's numeric MTP code" as the same-named `LIBMTP_FILETYPE_*` constant
(`text` and `txt` both map to TEXT).  The spec also lists `ape`, for which
libmtp defines no same-named constant and the claim pins no code, so `ape`
is omitted here. -/
def specFiletypeTable : List (String × Nat) :=
  [("wav", MTPType.LIBMTP_FILETYPE_WAV), ("mp3", MTPType.LIBMTP_FILETYPE_MP3),
   ("wma", MTPType.LIBMTP_FILETYPE_WMA), ("ogg", MTPType.LIBMTP_FILETYPE_OGG),
   ("mp4", MTPType.LIBMTP_FILETYPE_MP4), ("wmv", MTPType.LIBMTP_FILETYPE_WMV),
   ("avi", MTPType.LIBMTP_FILETYPE_AVI), ("mpeg", MTPType.LIBMTP_FILETYPE_MPEG),
   ("asf", MTPType.LIBMTP_FILETYPE_ASF), ("qt", MTPType.LIBMTP_FILETYPE_QT),
   ("jpeg", MTPType.LIBMTP_FILETYPE_JPEG), ("jfif", MTPType.LIBMTP_FILETYPE_JFIF),
   ("tiff", MTPType.LIBMTP_FILETYPE_TIFF), ("bmp", MTPType.LIBMTP_FILETYPE_BMP),
   ("gif", MTPType.LIBMTP_FILETYPE_GIF), ("pict", MTPType.LIBMTP_FILETYPE_PICT),
   ("png", MTPType.LIBMTP_FILETYPE_PNG), ("text", MTPType.LIBMTP_FILETYPE_TEXT),
   ("txt", MTPType.LIBMTP_FILETYPE_TEXT), ("html", MTPType.LIBMTP_FILETYPE_HTML),
   ("aac", MTPType.LIBMTP_FILETYPE_AAC), ("flac", MTPType.LIBMTP_FILETYPE_FLAC),
   ("mp2", MTPType.LIBMTP_FILETYPE_MP2), ("m4a", MTPType.LIBMTP_FILETYPE_M4A),
   ("doc", MTPType.LIBMTP_FILETYPE_DOC), ("xml", MTPType.LIBMTP_FILETYPE_XML),
   ("xls", MTPType.LIBMTP_FILETYPE_XLS), ("ppt", MTPType.LIBMTP_FILETYPE_PPT),
   ("mht", MTPType.LIBMTP_FILETYPE_MHT), ("jp2", MTPType.LIBMTP_FILETYPE_JP2),
   ("jpx", MTPType.LIBMTP_FILETYPE_JPX)]

/-! ### Transfer timeouts (pymtpfs.py: `__read_timeout`, `__write_timeout`)

`MTPFS.__init__` sets `self.read_timeout = 2` and `self.write_timeout = 2`
(seconds per byte).  The two private helpers compute the alarm timeout for a
device transfer of `length` bytes. -/

/-- The field `self.read_timeout` as set in `MTPFS.__init__`. -/
def MTPFS.read_timeout : Nat := 2

/-- The field `self.write_timeout` as set in `MTPFS.__init__`. -/
def MTPFS.write_timeout : Nat := 2

/-- The helper `MTPFS.__read_timeout` (pymtpfs.py lines 522-530): `timeout = rate * length;
if timeout <= 10: timeout = 10`.  The rate is `self.read_timeout`. -/
def readTimeoutFn (rate length : Nat) : Nat :=
  let timeout := rate * length
  if timeout ≤ 10 then 10 else timeout

/-- The helper `MTPFS.__write_timeout` (pymtpfs.py lines 532-536): `timeout = rate * length;
if timeout < 10: timeout = 10`. -/
def writeTimeoutFn (rate length : Nat) : Nat :=
  let timeout := rate * length
  if timeout < 10 then 10 else timeout

/-! ### Bounded LRU cache (lru.py: class `LRU`)

The Python class wraps a `collections.OrderedDict`, modelled here as an
insertion-ordered association list: the head is the oldest (least recently
used) binding, new bindings are appended at the end (most recently used).
`OrderedDict.pop(k)` removes the binding of `k`; `popitem(last=False)`
removes the head. -/

/-- Python `OrderedDict.pop(k)` result map: the binding of `k` removed.  Keys are
unique in a dict, so filtering all bindings of `k` matches `pop`. -/
def odRemove {α β : Type} [DecidableEq α] (k : α) (m : List (α × β)) :
    List (α × β) :=
  m.filter (fun e => e.1 ≠ k)

/-- The key sequence of an ordered map. -/
def odKeys {α β : Type} (m : List (α × β)) : List α := m.map Prod.fst

/-- Python dict lookup: value of the binding of `k`, if any. -/
def odLookup {α β : Type} [DecidableEq α] (k : α) (m : List (α × β)) :
    Option β :=
  (m.find? (fun e => e.1 = k)).map Prod.snd

/-- The `LRU` class of lru.py: a fixed capacity `size` and an ordered map. -/
structure LRU (α β : Type) where
  size : Nat
  map : List (α × β)

namespace LRU

variable {α β : Type} [DecidableEq α]

/-- The `LRU(size)` constructor: empty map. -/
def empty (β : Type) (size : Nat) : LRU α β := ⟨size, []⟩

/-- Python `LRU.__getitem__` (lru.py lines 8-11): `v = self.map.pop(k);
self.map[k] = v; return v`.  A missing key raises KeyError, modelled as
`none` (the map is untouched because `pop` raises before mutating). -/
def getitem (c : LRU α β) (k : α) : Option (β × LRU α β) :=
  match odLookup k c.map with
  | none => none
  | some v => some (v, ⟨c.size, odRemove k c.map ++ [(k, v)]⟩)

/-- Python `LRU.__setitem__` (lru.py lines 13-18): a present key is popped first
(no eviction); otherwise, if the map is at capacity, `popitem(last=False)`
evicts the head; finally `(k, v)` is appended. -/
def setitem (c : LRU α β) (k : α) (v : β) : LRU α β :=
  if k ∈ odKeys c.map then
    ⟨c.size, odRemove k c.map ++ [(k, v)]⟩
  else if c.size ≤ c.map.length then
    ⟨c.size, c.map.drop 1 ++ [(k, v)]⟩
  else
    ⟨c.size, c.map ++ [(k, v)]⟩

/-- Python `LRU.__delitem__` (lru.py lines 20-23): remove the binding if present. -/
def delitem (c : LRU α β) (k : α) : LRU α β :=
  if k ∈ odKeys c.map then ⟨c.size, odRemove k c.map⟩ else c

end LRU

/-- One cache operation: insertion, lookup or deletion. -/
inductive LRUOp (α β : Type) where
  | set (k : α) (v : β)
  | get (k : α)
  | del (k : α)

namespace LRU

variable {α β : Type} [DecidableEq α]

/-- Apply one operation to the cache (a failed lookup raises KeyError and
leaves the cache unchanged). -/
def applyOp (c : LRU α β) : LRUOp α β → LRU α β
  | .set k v => c.setitem k v
  | .get k =>
      match c.getitem k with
      | none => c
      | some (_, c') => c'
  | .del k => c.delitem k

/-- Apply a sequence of operations in order. -/
def applyOps (c : LRU α β) (ops : List (LRUOp α β)) : LRU α β :=
  ops.foldl applyOp c

end LRU

/-! ### `MTP.copy_from` and its timeout recovery (mtp.py lines 668-727)

`copy_from(source, target, timeout, recurse=0)` downloads one object.  The
outcomes of the external calls it makes are collected in `CopyFromEnv`:
the path lookup (`get_path`), the libmtp transfer return code, whether the
SIGALRM timeout handler fired during the attempt (`timeouterr[0] != 0`),
and the success of each device reopen.  Each transfer attempt happens at a
distinct `recurse` level, so the per-attempt outcomes are indexed by level;
the rescanning reopen of the `recurse == 1` block can run inside the
level-0 call (after the rescan-free reopen failed, via the `recurse = 1`
fall-through assignment) or inside the level-1 call, so it is indexed by
the calling level. -/

structure CopyFromEnv where
  /-- `get_path(source)` resolves to an entry (else ENOENT). -/
  entryFound : Bool
  /-- the resolved entry `is_directory()` (then EISDIR). -/
  entryIsDir : Bool
  /-- `LIBMTP_Get_File_To_File[_Descriptor]` return code at the attempt made
  with this `recurse` level. -/
  ret : Nat → Int
  /-- the alarm fired during the attempt at this `recurse` level. -/
  timedOut : Nat → Bool
  /-- `self.open(devno, must_refresh=False)` in the `recurse == 0` block. -/
  openNoRescanOk : Bool
  /-- `self.open(devno, must_refresh=True)` in the `recurse == 1` block,
  indexed by the `recurse` value of the call the block runs in. -/
  openRescanOk : Nat → Bool

/-- The method `MTP.copy_from` (mtp.py lines 668-727), returning the errno result
(`0` on success). -/
def MTP.copy_from (env : CopyFromEnv) (recurse : Nat) : Int :=
  if env.entryFound = false then ENOENT
  else if env.entryIsDir = true then EISDIR
  else
    -- alarm-wrapped LIBMTP_Get_File_To_File[_Descriptor]
    if env.timedOut recurse = true then
      -- `if recurse == 0:` close; reopen without rescan; retry at level 1,
      -- falling through with `recurse = 1` when the reopen fails
      if recurse = 0 then
        if env.openNoRescanOk then MTP.copy_from env 1
        else
          -- `if recurse == 1:` close; reopen with full rescan; retry at
          -- level 2 or give up
          if env.openRescanOk 0 then MTP.copy_from env 2 else EINTR
      else if recurse = 1 then
        if env.openRescanOk 1 then MTP.copy_from env 2 else EINTR
      else if recurse = 2 then EINTR
      else if env.ret recurse ≠ 0 then EIO else 0
    else if env.ret recurse ≠ 0 then EIO
    else 0
termination_by 2 - recurse
decreasing_by all_goals omega

/-- The sequence of `recurse` levels visited by a `copy_from` call chain
(mirrors the recursion of `MTP.copy_from`). -/
def copyFromLevels (env : CopyFromEnv) (recurse : Nat) : List Nat :=
  if env.entryFound = false then [recurse]
  else if env.entryIsDir = true then [recurse]
  else
    if env.timedOut recurse = true then
      if recurse = 0 then
        if env.openNoRescanOk then recurse :: copyFromLevels env 1
        else
          if env.openRescanOk 0 then recurse :: copyFromLevels env 2
          else [recurse]
      else if recurse = 1 then
        if env.openRescanOk 1 then recurse :: copyFromLevels env 2
        else [recurse]
      else [recurse]
    else [recurse]
termination_by 2 - recurse
decreasing_by all_goals omega

/-! ### `MTP.mkdir` (mtp.py lines 851-882) and `MTPFS.mkdir`
(pymtpfs.py lines 351-364)

Python exceptions are modelled with `Except`: `FuseOSError(e)` raised by the
dispatcher becomes `.error (.fuse e)`, and the `AttributeError` that attribute
access on `None` raises becomes `.error .attrError`. -/

inductive PyErr where
  | fuse (e : Int)
  | attrError
  | typeError
deriving DecidableEq

/-- Outcomes of the external calls made by an `mkdir` call chain. -/
structure MkdirEnv where
  /-- `get_path(path)` resolves the target path to an entry. -/
  entryFound : Bool
  /-- `get_path(dirpath)` resolves the parent (dirpath is nonempty for the
  absolute paths FUSE delivers). -/
  parentFound : Bool
  /-- the parent entry `is_directory()`. -/
  parentIsDir : Bool
  /-- `LIBMTP_Create_Folder` result (`newid`) at the attempt made with this
  `recurse` level. -/
  createNewId : Nat → Int
  /-- `self.check()` (liveness probe) at this `recurse` level. -/
  checkOk : Nat → Bool
  /-- `self.open(devno, must_refresh=True)` in the `recurse == 0` block. -/
  reopenOk : Bool
  /-- whether `direntry.refresh()` on a closed device raises
  AttributeError (it does for an `MTPFolder` parent, whose refresh touches
  `open_device.device`; it is a no-op for the virtual-root `MTPStorage`). -/
  refreshClosedRaises : Bool

/-- The method `MTP.mkdir` (mtp.py lines 851-882): returns `True`/`False` as the
source does, or the exception the source lets escape. -/
def MTP.mkdir (env : MkdirEnv) (recurse : Nat) : Except PyErr Bool :=
  if env.entryFound then .ok false
  else if env.parentFound = true ∧ env.parentIsDir = false then .ok false
  else
    if env.createNewId recurse ≤ 0 then
      if env.checkOk recurse = false then
        if recurse = 0 then
          if env.reopenOk then MTP.mkdir env 1
          else
            -- `recurse` is still 0 here, so the `if recurse == 1:` block is
            -- skipped and control falls through to the refresh/return-True
            -- tail with the device closed
            if env.parentFound = true ∧ env.refreshClosedRaises = true then
              .error .attrError
            else .ok true
        else if recurse = 1 then .ok false
        else
          -- unreachable from the source's call sites (recurse ∈ {0, 1});
          -- the tail runs with the device still open
          .ok true
      else .ok false
    else .ok true
termination_by 1 - recurse
decreasing_by all_goals omega

/-- The sequence of `recurse` levels visited by an `mkdir` call chain. -/
def mkdirLevels (env : MkdirEnv) (recurse : Nat) : List Nat :=
  if env.entryFound then [recurse]
  else if env.parentFound = true ∧ env.parentIsDir = false then [recurse]
  else
    if env.createNewId recurse ≤ 0 then
      if env.checkOk recurse = false then
        if recurse = 0 then
          if env.reopenOk then recurse :: mkdirLevels env 1
          else [recurse]
        else [recurse]
      else [recurse]
    else [recurse]
termination_by 1 - recurse
decreasing_by all_goals omega

/-- The method `MTPFS.mkdir` (pymtpfs.py lines 351-364): EEXIST when the path already
resolves, ENOTDIR when the parent is missing or not a directory, then the
device mkdir; a `False` from it becomes a FuseOSError carrying EIO. -/
def MTPFS.mkdir (env : MkdirEnv) : Except PyErr Int :=
  if env.entryFound then .error (.fuse EEXIST)
  else if env.parentFound = false ∨ env.parentIsDir = false then
    .error (.fuse ENOTDIR)
  else
    match MTP.mkdir env 0 with
    | .error e => .error e
    | .ok true => .ok 0
    | .ok false => .error (.fuse EIO)

/-! ### `MTP.rename` (mtp.py lines 907-971) and the path cache

The per-storage path cache `self.contents` is the bounded
`LRU(PATH_CACHE_SIZE)` of mtp.py line 425, modelled with the `LRU`
structure above (keys are absolute paths; the cached entry objects are
irrelevant here, so the value type is `Unit`).  During a `rename` the cache
is touched only by the four `get_path` lookups.  `MTPStorage.find_entry`
first tries `self.contents[path]`: a hit goes through `LRU.__getitem__`,
which re-appends the key as most recently used; a miss raises a KeyError
caught by the walk `MTPStorage.__find_entry`, which performs further
`self.contents[...]` lookups and inserts every directory it resolves via
`self.contents[path] = en` (mtp.py line 512) — an `LRU.__setitem__`, which
at capacity evicts the least-recently-used key.  Files found via
`find_file` are returned without being cached.  No operation of the walk
removes a key, and `MTPStorage.remove_entry` (mtp.py lines 518-523), the
only key-removal operation, is not called anywhere in `rename`. -/

/-- The method `MTPStorage.remove_entry` (mtp.py lines 518-523): `del self.contents[path]`
via `LRU.__delitem__`, which checks membership and never raises, so the
`except KeyError` branch is dead and the function always returns `True`. -/
def MTPStorage.remove_entry {β : Type} (contents : LRU String β)
    (path : String) : Bool × LRU String β :=
  (true, contents.delitem path)

/-- A cache operation the `__find_entry` walk performs on a cache miss:
a lookup `self.contents[p]` (re-appending the key on a hit, a caught
KeyError on a miss) or a directory insertion `self.contents[p] = en`
(mtp.py line 512).  Removal is not among the operations the walk performs. -/
inductive WalkOp where
  | lookup (p : String)
  | insert (p : String)

/-- Cache effect of one walk operation. -/
def applyWalkOp (c : LRU String Unit) : WalkOp → LRU String Unit
  | .lookup p =>
      match c.getitem p with
      | none => c
      | some (_, c') => c'
  | .insert p => c.setitem p ()

/-- Cache effect of a walk: its lookups and insertions, in order. -/
def applyWalkOps (c : LRU String Unit) (ops : List WalkOp) :
    LRU String Unit :=
  ops.foldl applyWalkOp c

/-- Cache effect of one `get_path` call (`MTPStorage.find_entry`): a hit
re-appends the key as most recently used (`LRU.__getitem__`); a miss runs
the `except KeyError` walk, whose cache effect is the given lookups and
insertions. -/
def getPathCacheEffect (walk : List WalkOp) (path : String)
    (c : LRU String Unit) : LRU String Unit :=
  match c.getitem path with
  | some (_, c') => c'
  | none => applyWalkOps c walk

/-- The mutable state `rename` touches: the path cache and the
`must_refresh` flags of the two parent folders. -/
structure RenameState where
  contents : LRU String Unit
  oldParentNeedsRefresh : Bool
  newParentNeedsRefresh : Bool

/-- Outcomes of the external calls made by `MTP.rename`. -/
structure RenameEnv where
  /-- `get_path(oldpath)` resolves. -/
  oldFound : Bool
  /-- the old entry `is_directory()`. -/
  oldIsDir : Bool
  /-- `get_path(dirpath(oldpath))` resolves. -/
  oldDirFound : Bool
  /-- the old parent `is_directory()`. -/
  oldDirIsDir : Bool
  /-- `get_path(newpath)` resolves (target already exists). -/
  newFound : Bool
  /-- the existing target `is_directory()`. -/
  newIsDir : Bool
  /-- `newentry.object_count()` for an existing target directory. -/
  newCount : Nat
  /-- `get_path(dirpath(newpath))` resolves. -/
  newDirFound : Bool
  /-- the new parent `is_directory()`. -/
  newDirIsDir : Bool
  /-- `LIBMTP_Set_File_Name` / `LIBMTP_Set_Folder_Name` return code. -/
  setNameErr : Int
  /-- walk operations of the `get_path(oldpath)` lookup, if it misses. -/
  walkOld : List WalkOp
  /-- walk operations of the old-parent lookup, if it misses. -/
  walkOldDir : List WalkOp
  /-- walk operations of the `get_path(newpath)` lookup, if it misses. -/
  walkNew : List WalkOp
  /-- walk operations of the new-parent lookup, if it misses. -/
  walkNewDir : List WalkOp

/-- The method `MTP.rename(oldpath, newpath)` (mtp.py lines 907-971).  The parent
paths `olddir`/`newdir` are the `os.path.split` heads computed by the
source.  Returns `isok` (or the exception the source lets escape) together
with the state after the call.  Note the `finally` block sets both parents'
`must_refresh` but removes no cache key. -/
def MTP.rename (env : RenameEnv) (oldpath olddir newpath newdir : String)
    (st : RenameState) : Except PyErr Bool × RenameState :=
  let c1 := getPathCacheEffect env.walkOld oldpath st.contents
  if env.oldFound = false then (.ok false, { st with contents := c1 })
  else
    let c2 := getPathCacheEffect env.walkOldDir olddir c1
    let c3 := getPathCacheEffect env.walkNew newpath c2
    if env.newFound = true ∧ env.newIsDir = true ∧ 0 < env.newCount then
      (.ok false, { st with contents := c3 })
    else
      let c4 := getPathCacheEffect env.walkNewDir newdir c3
      -- try-block: for an existing target file, download a backup and
      -- delete the target object; then set the new name on the old entry
      let isok := env.setNameErr = 0
      -- finally-block: on failure with a backup present the source calls
      -- `os.open(localbackup, 'r')`, whose string mode raises TypeError;
      -- the inner finally still marks both parents before it propagates
      let result : Except PyErr Bool :=
        if isok then .ok true
        else if env.newFound = true ∧ env.newIsDir = false then
          .error .typeError
        else .ok false
      (result,
       { contents := c4
         oldParentNeedsRefresh :=
           if env.oldDirFound = true ∧ env.oldDirIsDir = true then true
           else st.oldParentNeedsRefresh
         newParentNeedsRefresh :=
           if env.newDirFound = true ∧ env.newDirIsDir = true then true
           else st.newParentNeedsRefresh })

/-! ### `MTPFS.read` and its short-read loop (pymtpfs.py lines 191-239)

After seeking, `read` does `data = os.read(fh, size)` and then loops while
`len(data) < size`: each further `os.read` either appends its bytes to
`data`, or — when it returns zero bytes — increments `retries`, and the
loop breaks once `retries > 2`, returning the data read so far.  Bytes are
abstract (`List Nat`); the outcome of the i-th `os.read` of the call is
`chunk i`. -/

/-- Outcomes of the `os.read` calls one `read` makes: `chunk 0` is the
initial read, `chunk (i+1)` the i-th read of the while loop. -/
structure ReadCallEnv where
  fhPresent : Bool
  chunk : Nat → List Nat

/-- The while loop of `MTPFS.read` (pymtpfs.py lines 218-230): returns the
accumulated data together with the final value of `retries` (which counts
exactly the zero-byte reads seen, since it never resets). -/
def readLoop (env : ReadCallEnv) (size : Nat) (data : List Nat)
    (retries attempt : Nat) : List Nat × Nat :=
  if data.length < size then
    -- `s = os.read(fh, n)` with `n = size - len(data)`
    if (env.chunk attempt).length = 0 then
      if retries + 1 > 2 then (data, retries + 1)
      else readLoop env size data (retries + 1) (attempt + 1)
    else readLoop env size (data ++ env.chunk attempt) retries (attempt + 1)
  else (data, retries)
termination_by (size - data.length) + (3 - retries)
decreasing_by
  all_goals first
    | (simp only [List.length_append]; omega)
    | omega

/-- The method `MTPFS.read` (pymtpfs.py lines 191-239) restricted to the handle check
and the read loop (the seek is taken to succeed; an OS-level read fault is
outside this model): an unknown handle fails with EBADF, otherwise the loop
result is returned. -/
def MTPFS.read (env : ReadCallEnv) (size : Nat) :
    Except PyErr (List Nat) :=
  if env.fhPresent = false then .error (.fuse EBADF)
  else .ok (readLoop env size (env.chunk 0) 0 1).1

/-! ### `MTPFS.release` (pymtpfs.py lines 271-301) and the scratch files

`release` closes the OS handle (exceptions swallowed), looks the handle up
in `self.openfiles`, and runs a body/finally pair: the body uploads the
scratch file for a writable handle (raising `FuseOSError` on a nonzero
`copy_to` result) or raises `FuseOSError(EBADF)` when the handle is
unknown; the `finally` block calls `self.__del(openfile.path)`, which
removes the scratch file and swallows OS errors.  When the handle is
unknown, `openfile` is `None` and the attribute access `openfile.path`
inside the `finally` block raises AttributeError, replacing the EBADF
being propagated. -/

/-- An entry of `self.openfiles`: the `openfile_t` namedtuple
`(handle, path, mtp_path, readonly)`. -/
structure OpenFile where
  handle : Nat
  path : String
  mtp_path : String
  readonly : Bool
deriving DecidableEq

/-- Outcome of the `mtp.copy_to` upload a writable release performs. -/
structure ReleaseEnv where
  copyToErr : Int

/-- The method `MTPFS.release` (pymtpfs.py lines 271-301).  Result: the call outcome,
the list of scratch paths passed to `os.remove` (via `__del`), and the
created-LRU keys after the call. -/
def MTPFS.release (env : ReleaseEnv) (openfiles : List (Nat × OpenFile))
    (created : List String) (path : String) (fh : Nat) :
    Except PyErr Int × List String × List String :=
  match odLookup fh openfiles with
  | none =>
      -- body: log, raise FuseOSError(EBADF); finally: `openfile.path` with
      -- openfile = None raises AttributeError, replacing the EBADF; no
      -- scratch file is removed
      (.error .attrError, [], created)
  | some f =>
      let body : Except PyErr Int :=
        if f.readonly = false then
          if env.copyToErr ≠ 0 then .error (.fuse env.copyToErr) else .ok 0
        else .ok 0
      -- `self.created.__delitem__(path)` on upload success (never raises:
      -- LRU.__delitem__ checks membership)
      let created' :=
        if f.readonly = false ∧ env.copyToErr = 0 then
          created.filter (fun p => p ≠ path)
        else created
      -- finally: `self.__del(openfile.path)` removes the scratch file,
      -- swallowing OS errors
      (body, [f.path], created')

/-! ## Theorems -/

/-- Folding successive `replace` calls over a character list acts pointwise. -/
theorem foldl_strReplace_eq_map (L : List Char) (s : List Char) :
    L.foldl (fun acc ch => strReplace ch '-' acc) s
      = s.map (fun x => if x ∈ L then '-' else x) := by
  induction L generalizing s with
  | nil =>
    simp [List.map_id']
  | cons c L ih =>
    rw [List.foldl_cons, ih (strReplace c '-' s)]
    simp only [strReplace, List.map_map]
    apply List.map_congr_left
    intro x _
    by_cases hc : x = c <;> by_cases hm : x ∈ L <;> simp [hc, hm]

/-- The sanitiser `fix_path` acts pointwise: each bad character becomes `'-'`,
every other character is unchanged. -/
theorem fix_path_eq_map (p : List Char) :
    fix_path p = p.map (fun c => if c ∈ BAD_FILENAME_CHARS then '-' else c) := by
  unfold fix_path
  by_cases h : p.any (fun c => BAD_FILENAME_CHARS.contains c)
  · simp only [h, if_true]
    exact foldl_strReplace_eq_map _ _
  · simp only [h, if_false]
    have : ∀ c ∈ p, ¬ c ∈ BAD_FILENAME_CHARS := by
      intro c hc hmem
      exact h (List.any_eq_true.mpr ⟨c, hc, by simpa [List.contains] using hmem⟩)
    conv_lhs => rw [(List.map_id' p).symm]
    apply List.map_congr_left
    intro c hc
    simp [this c hc]

/-- C6: the path sanitiser `fix_path` replaces every occurrence of each
character in `{ : * ? " < > | }` with `'-'` and leaves all other characters
unchanged (it acts as the pointwise map doing exactly that), and it is
idempotent: `fix_path (fix_path p) = fix_path p`. -/
theorem c6_fix_path_replaces_and_idempotent (p : List Char) :
    fix_path p = p.map (fun c => if c ∈ BAD_FILENAME_CHARS then '-' else c)
      ∧ fix_path (fix_path p) = fix_path p := by
  refine ⟨fix_path_eq_map p, ?_⟩
  rw [fix_path_eq_map p, fix_path_eq_map, List.map_map]
  apply List.map_congr_left
  intro x _
  by_cases h : x ∈ BAD_FILENAME_CHARS
  · simp only [h, if_true, Function.comp_apply]
    have : ¬ ('-' : Char) ∈ BAD_FILENAME_CHARS := by decide
    simp [this]
  · simp [h]

/-- C5 counterexample: a path ending in `.ogg` does NOT map to the library's
OGG code; the duplicated `'ogg'` key in the `MTPType.dict` literal makes the
later binding to AUDIBLE win. -/
theorem c5_filetype_ogg_counterexample :
    MTPType.filetype ("x.ogg".toList) ≠ MTPType.LIBMTP_FILETYPE_OGG
      ∧ MTPType.filetype ("x.ogg".toList) = MTPType.LIBMTP_FILETYPE_AUDIBLE := by
  constructor <;> decide

/-- If a key matches no entry of an association list, the dict-construction
fold yields `none`. -/
theorem foldl_assoc_none (l : List (String × Nat)) (k : String)
    (h : k ∉ l.map Prod.fst) :
    l.foldl (fun acc e => if e.1 = k then some e.2 else acc)
      (none : Option Nat) = none := by
  induction l with
  | nil => rfl
  | cons e l ih =>
    simp only [List.map_cons, List.mem_cons, not_or] at h
    simp only [List.foldl_cons]
    rw [if_neg (fun he => h.1 he.symm)]
    exact ih h.2

/-- C5 (amended): every extension of the spec's table other than `ogg` maps
through `MTPType.filetype` to that extension's code (case-insensitively, the
extension being lowercased first); `ogg` and `ape` map to the AUDIBLE code;
and every path whose extracted extension is not a key of the table maps to
`LIBMTP_FILETYPE_UNKNOWN`. -/
theorem c5_filetype_table_amended :
    (∀ ec ∈ specFiletypeTable, ec.1 ≠ "ogg" →
        MTPType.filetype (("f." ++ ec.1).toList) = ec.2)
      ∧ MTPType.filetype ("f.ogg".toList) = MTPType.LIBMTP_FILETYPE_AUDIBLE
      ∧ MTPType.filetype ("f.OGG".toList) = MTPType.LIBMTP_FILETYPE_AUDIBLE
      ∧ MTPType.filetype ("f.ape".toList) = MTPType.LIBMTP_FILETYPE_AUDIBLE
      ∧ (∀ p : List Char,
          String.mk (((MTPType.splitextExt p).map Char.toLower).drop 1)
              ∉ MTPType.entries.map Prod.fst →
          MTPType.filetype p = MTPType.LIBMTP_FILETYPE_UNKNOWN) := by
  refine ⟨by decide, by decide, by decide, by decide, ?_⟩
  intro p h
  dsimp only [MTPType.filetype, MTPType.dictGet]
  rw [foldl_assoc_none _ _ h]
  rfl

/-- C5 amended, witness: the amended theorem evaluated at the concrete
extension `wav` and at a concrete path with an unknown extension. -/
theorem c5_filetype_table_amended_witness :
    MTPType.filetype ("f.wav".toList) = MTPType.LIBMTP_FILETYPE_WAV
      ∧ MTPType.filetype ("f.xyz".toList) = MTPType.LIBMTP_FILETYPE_UNKNOWN :=
  ⟨c5_filetype_table_amended.1 ("wav", MTPType.LIBMTP_FILETYPE_WAV)
      (by decide) (by decide),
   c5_filetype_table_amended.2.2.2.2 ("f.xyz".toList) (by decide)⟩

/-- C4: for every object size `L`, the timeout passed by `open`
(`copy_from(path, fh, timeout=self.__read_timeout(entry.get_length()))`) is
`max(10, read_timeout_per_byte * L)`, and the timeout passed by `release`
(`copy_to(..., timeout=self.__write_timeout(os.path.getsize(...)))`) is
`max(10, write_timeout_per_byte * L)`, for any per-byte rates. -/
theorem c4_transfer_timeouts (rate L : Nat) :
    readTimeoutFn rate L = max 10 (rate * L)
      ∧ writeTimeoutFn rate L = max 10 (rate * L)
      ∧ readTimeoutFn MTPFS.read_timeout L = max 10 (2 * L)
      ∧ writeTimeoutFn MTPFS.write_timeout L = max 10 (2 * L) := by
  refine ⟨?_, ?_, ?_, ?_⟩ <;>
    dsimp only [readTimeoutFn, writeTimeoutFn, MTPFS.read_timeout, MTPFS.write_timeout] <;>
    split <;> omega

theorem odRemove_length_lt {α β : Type} [DecidableEq α] (k : α)
    (m : List (α × β)) (h : k ∈ odKeys m) :
    (odRemove k m).length < m.length := by
  rw [odRemove, List.length_filter_lt_length_iff_exists]
  obtain ⟨e, he, hk⟩ := List.mem_map.mp h
  exact ⟨e, he, by simp [hk]⟩

theorem odRemove_of_not_mem {α β : Type} [DecidableEq α] (k : α)
    (m : List (α × β)) (h : k ∉ odKeys m) :
    odRemove k m = m := by
  rw [odRemove, List.filter_eq_self]
  intro e he
  simp only [decide_eq_true_eq]
  intro hk
  exact h (List.mem_map.mpr ⟨e, he, hk⟩)

theorem odRemove_cons_of_eq {α β : Type} [DecidableEq α] (k : α)
    (e : α × β) (t : List (α × β)) (hk : e.1 = k) :
    odRemove k (e :: t) = odRemove k t := by
  simp [odRemove, List.filter_cons, hk]

theorem odRemove_cons_of_ne {α β : Type} [DecidableEq α] (k : α)
    (e : α × β) (t : List (α × β)) (hk : e.1 ≠ k) :
    odRemove k (e :: t) = e :: odRemove k t := by
  simp [odRemove, List.filter_cons, hk]

theorem odRemove_length_of_nodup {α β : Type} [DecidableEq α] (k : α)
    (m : List (α × β)) (hnd : (odKeys m).Nodup) (h : k ∈ odKeys m) :
    (odRemove k m).length + 1 = m.length := by
  induction m with
  | nil => cases h
  | cons e t ih =>
    have hnd' : e.1 ∉ odKeys t ∧ (odKeys t).Nodup := List.nodup_cons.mp hnd
    by_cases hk : e.1 = k
    · have ht : k ∉ odKeys t := hk ▸ hnd'.1
      rw [odRemove_cons_of_eq k e t hk, odRemove_of_not_mem k t ht,
        List.length_cons]
    · have hmem : k ∈ odKeys t := by
        rcases List.mem_cons.mp (h : k ∈ e.1 :: odKeys t) with h1 | h1
        · exact absurd h1.symm hk
        · exact h1
      rw [odRemove_cons_of_ne k e t hk, List.length_cons, List.length_cons]
      have := ih hnd'.2 hmem
      omega

theorem mem_odKeys_of_odLookup {α β : Type} [DecidableEq α] (k : α)
    (m : List (α × β)) (v : β) (hl : odLookup k m = some v) :
    k ∈ odKeys m := by
  obtain ⟨e, hfind⟩ := Option.map_eq_some'.mp hl
  have hkey := List.find?_some hfind.1
  have hmem := List.mem_of_find?_eq_some hfind.1
  simp only [decide_eq_true_eq] at hkey
  exact List.mem_map.mpr ⟨e, hmem, hkey⟩

theorem size_applyOp {α β : Type} [DecidableEq α] (c : LRU α β)
    (op : LRUOp α β) : (c.applyOp op).size = c.size := by
  cases op with
  | set k v =>
    simp only [LRU.applyOp, LRU.setitem]
    split
    · rfl
    · split <;> rfl
  | get k =>
    simp only [LRU.applyOp, LRU.getitem]
    cases odLookup k c.map with
    | none => rfl
    | some v => rfl
  | del k =>
    simp only [LRU.applyOp, LRU.delitem]
    split <;> rfl

theorem length_le_applyOp {α β : Type} [DecidableEq α] (c : LRU α β)
    (op : LRUOp α β) (hpos : 1 ≤ c.size) (h : c.map.length ≤ c.size) :
    (c.applyOp op).map.length ≤ c.size := by
  cases op with
  | set k v =>
    simp only [LRU.applyOp, LRU.setitem]
    by_cases hm : k ∈ odKeys c.map
    · have := odRemove_length_lt k c.map hm
      rw [if_pos hm]
      simp only [List.length_append, List.length_cons, List.length_nil]
      omega
    · rw [if_neg hm]
      by_cases hfull : c.size ≤ c.map.length
      · rw [if_pos hfull]
        show (c.map.drop 1 ++ [(k, v)]).length ≤ c.size
        simp only [List.length_append, List.length_drop, List.length_cons,
          List.length_nil]
        omega
      · rw [if_neg hfull]
        show (c.map ++ [(k, v)]).length ≤ c.size
        simp only [List.length_append, List.length_cons, List.length_nil]
        omega
  | get k =>
    simp only [LRU.applyOp, LRU.getitem]
    cases hl : odLookup k c.map with
    | none => exact h
    | some v =>
      have := odRemove_length_lt k c.map (mem_odKeys_of_odLookup k c.map v hl)
      show (odRemove k c.map ++ [(k, v)]).length ≤ c.size
      simp only [List.length_append, List.length_cons, List.length_nil]
      omega
  | del k =>
    simp only [LRU.applyOp, LRU.delitem]
    by_cases hm : k ∈ odKeys c.map
    · have := odRemove_length_lt k c.map hm
      rw [if_pos hm]
      show (odRemove k c.map).length ≤ c.size
      omega
    · rw [if_neg hm]
      exact h

theorem length_le_applyOps {α β : Type} [DecidableEq α] (c : LRU α β)
    (ops : List (LRUOp α β)) (hpos : 1 ≤ c.size) (h : c.map.length ≤ c.size) :
    (c.applyOps ops).map.length ≤ c.size := by
  induction ops generalizing c with
  | nil => exact h
  | cons op ops ih =>
    have hsz := size_applyOp c op
    have h1 : (c.applyOp op).map.length ≤ (c.applyOp op).size := by
      rw [hsz]; exact length_le_applyOp c op hpos h
    have h2 := ih (c.applyOp op) (by rw [hsz]; exact hpos) h1
    rw [hsz] at h2
    simpa only [LRU.applyOps, List.foldl_cons] using h2

theorem mem_odKeys_after_reinsert {α β : Type} [DecidableEq α]
    (k k' : α) (v : β) (m : List (α × β)) (hk : k ∈ odKeys m) :
    k' ∈ odKeys (odRemove k m ++ [(k, v)]) ↔ k' ∈ odKeys m := by
  have hsplit : odKeys (odRemove k m ++ [(k, v)])
      = odKeys (odRemove k m) ++ [k] := by
    simp [odKeys]
  rw [hsplit, List.mem_append, List.mem_singleton]
  constructor
  · rintro (h | rfl)
    · obtain ⟨e, he, rfl⟩ := List.mem_map.mp h
      exact List.mem_map.mpr ⟨e, (List.mem_filter.mp he).1, rfl⟩
    · exact hk
  · intro h
    by_cases hkk : k' = k
    · exact Or.inr hkk
    · obtain ⟨e, he, rfl⟩ := List.mem_map.mp h
      refine Or.inl (List.mem_map.mpr ⟨e, List.mem_filter.mpr ⟨he, ?_⟩, rfl⟩)
      simpa using hkk

/-- C9: for a fixed-capacity LRU cache of capacity `n ≥ 1`:
(1) starting from the empty cache, no sequence of insertions, lookups and
deletions ever pushes the entry count above `n`;
(2) inserting a new key into a full cache evicts exactly the
least-recently-used entry (the head of the order), keeping all other
entries in order and appending the new binding as most recently used;
(3) re-inserting a key that is already present (with distinct keys) evicts
nothing: the entry count and the key set are unchanged;
(4) a successful lookup reorders its binding to the most-recently-used
position (the end of the order) and touches nothing else. -/
theorem c9_lru_cache_invariants {α β : Type} [DecidableEq α]
    (n : Nat) (hn : 1 ≤ n) :
    (∀ ops : List (LRUOp α β),
        ((LRU.empty β n : LRU α β).applyOps ops).map.length ≤ n)
      ∧ (∀ (c : LRU α β) (k : α) (v : β),
          c.map.length = c.size → k ∉ odKeys c.map →
          (c.setitem k v).map = c.map.drop 1 ++ [(k, v)])
      ∧ (∀ (c : LRU α β) (k : α) (v : β),
          (odKeys c.map).Nodup → k ∈ odKeys c.map →
          (c.setitem k v).map.length = c.map.length
            ∧ ∀ k', k' ∈ odKeys (c.setitem k v).map ↔ k' ∈ odKeys c.map)
      ∧ (∀ (c : LRU α β) (k : α) (v : β) (c' : LRU α β),
          c.getitem k = some (v, c') →
          c'.map = odRemove k c.map ++ [(k, v)]
            ∧ c'.map.getLast? = some (k, v) ∧ c'.size = c.size) := by
  refine ⟨?_, ?_, ?_, ?_⟩
  · intro ops
    exact length_le_applyOps (LRU.empty β n : LRU α β) ops hn (by simp [LRU.empty])
  · intro c k v hfull hk
    simp only [LRU.setitem, hk, if_false, hfull.symm.le, if_true]
  · intro c k v hnd hk
    have hlen := odRemove_length_of_nodup k c.map hnd hk
    simp only [LRU.setitem, hk, if_true]
    constructor
    · simp only [List.length_append, List.length_cons, List.length_nil]
      omega
    · intro k'
      exact mem_odKeys_after_reinsert k k' v c.map hk
  · intro c k v c' hget
    simp only [LRU.getitem] at hget
    cases hl : odLookup k c.map with
    | none => rw [hl] at hget; exact absurd hget (by simp)
    | some w =>
      rw [hl] at hget
      simp only [Option.some.injEq, Prod.mk.injEq] at hget
      obtain ⟨rfl, rfl⟩ := hget
      refine ⟨rfl, ?_, rfl⟩
      simp [List.getLast?_append]

/-- C9 witness: the invariants evaluated on a concrete capacity-2 cache over
`Nat` keys and values: a bounded operation sequence, a full-cache insertion
evicting the LRU head, a present-key re-insertion preserving the count, and
a lookup whose resulting cache has the key at the MRU end. -/
theorem c9_lru_cache_invariants_witness :
    ((LRU.empty Nat 2 : LRU Nat Nat).applyOps
        [.set 1 10, .set 2 20, .set 3 30]).map.length ≤ 2
      ∧ ((⟨2, [(1, 10), (2, 20)]⟩ : LRU Nat Nat).setitem 3 30).map
          = [(2, 20), (3, 30)]
      ∧ ((⟨2, [(1, 10), (2, 20)]⟩ : LRU Nat Nat).setitem 1 11).map.length = 2
      ∧ (⟨2, [(2, 20), (1, 10)]⟩ : LRU Nat Nat).map.getLast? = some (1, 10) := by
  refine ⟨(c9_lru_cache_invariants 2 (by decide)).1 _, ?_, ?_, ?_⟩
  · have := (c9_lru_cache_invariants 2 (by decide)).2.1
      (⟨2, [(1, 10), (2, 20)]⟩ : LRU Nat Nat) 3 30 rfl (by decide)
    rw [this]
    rfl
  · exact ((c9_lru_cache_invariants 2 (by decide)).2.2.1
      (⟨2, [(1, 10), (2, 20)]⟩ : LRU Nat Nat) 1 11 (by decide) (by decide)).1
  · exact ((c9_lru_cache_invariants 2 (by decide)).2.2.2
      (⟨2, [(1, 10), (2, 20)]⟩ : LRU Nat Nat) 1 10
      ⟨2, [(2, 20), (1, 10)]⟩ (by rfl)).2.1

theorem copyFromLevels_two (env : CopyFromEnv) :
    copyFromLevels env 2 = [2] := by
  unfold copyFromLevels
  split_ifs <;> simp_all

theorem copyFromLevels_one_le (env : CopyFromEnv) :
    ∀ l ∈ copyFromLevels env 1, l ≤ 2 := by
  unfold copyFromLevels
  split_ifs <;> simp_all [copyFromLevels_two]

/-- C1: for every environment of external-call outcomes in which the source
path resolves to a file, the `copy_from` recovery recursion starting at
level 0 only ever visits levels in `{0, 1, 2}`; on a timeout at level 0
with the rescan-free reopen succeeding the transfer is retried at level 1;
on a timeout at level 1 with the rescanning reopen succeeding it is retried
at level 2; and a timeout at level 2 returns EINTR. -/
theorem c1_copy_from_recovery_levels (env : CopyFromEnv)
    (hfound : env.entryFound = true) (hdir : env.entryIsDir = false) :
    (∀ l ∈ copyFromLevels env 0, l ≤ 2)
      ∧ (env.timedOut 0 = true → env.openNoRescanOk = true →
          MTP.copy_from env 0 = MTP.copy_from env 1)
      ∧ (env.timedOut 1 = true → env.openRescanOk 1 = true →
          MTP.copy_from env 1 = MTP.copy_from env 2)
      ∧ (env.timedOut 2 = true → MTP.copy_from env 2 = EINTR) := by
  refine ⟨?_, ?_, ?_, ?_⟩
  · unfold copyFromLevels
    split_ifs <;>
      simp_all [copyFromLevels_one_le, copyFromLevels_two]
    · intro l hl
      exact copyFromLevels_one_le env l hl
  · intro ht hopen
    conv_lhs => unfold MTP.copy_from
    simp [hfound, hdir, ht, hopen]
  · intro ht hopen
    conv_lhs => unfold MTP.copy_from
    simp [hfound, hdir, ht, hopen]
  · intro ht
    conv_lhs => unfold MTP.copy_from
    simp [hfound, hdir, ht]

/-- C1 witness: a concrete environment in which every attempt times out and
every reopen succeeds: the visited levels are exactly `[0, 1, 2]` and the
call chain ends in EINTR. -/
theorem c1_copy_from_recovery_levels_witness :
    (∀ l ∈ copyFromLevels
        ⟨true, false, fun _ => 0, fun _ => true, true, fun _ => true⟩ 0,
        l ≤ 2)
      ∧ copyFromLevels
          ⟨true, false, fun _ => 0, fun _ => true, true, fun _ => true⟩ 0
          = [0, 1, 2]
      ∧ MTP.copy_from
          ⟨true, false, fun _ => 0, fun _ => true, true, fun _ => true⟩ 2
          = EINTR := by
  refine ⟨(c1_copy_from_recovery_levels _ rfl rfl).1, ?_, ?_⟩
  · unfold copyFromLevels copyFromLevels copyFromLevels
    simp
  · exact (c1_copy_from_recovery_levels _ rfl rfl).2.2.2 rfl

/-- C2 counterexample: with folder creation failing and the liveness probe
failing at every level and the reopen succeeding, the `mkdir` recovery runs
only levels 0 and 1 (two levels, not three) and the dispatcher surfaces
EIO, not EINTR. -/
theorem c2_mkdir_counterexample :
    MTPFS.mkdir ⟨false, true, true, fun _ => 0, fun _ => false, true, true⟩
        = .error (.fuse EIO)
      ∧ mkdirLevels
          ⟨false, true, true, fun _ => 0, fun _ => false, true, true⟩ 0
          = [0, 1]
      ∧ PyErr.fuse EIO ≠ PyErr.fuse EINTR := by
  refine ⟨?_, ?_, by decide⟩
  · have h1 : MTP.mkdir
        ⟨false, true, true, fun _ => 0, fun _ => false, true, true⟩ 1
        = .ok false := by
      unfold MTP.mkdir
      simp
    have h0 : MTP.mkdir
        ⟨false, true, true, fun _ => 0, fun _ => false, true, true⟩ 0
        = .ok false := by
      unfold MTP.mkdir
      simpa using h1
    simp [MTPFS.mkdir, h0]
  · unfold mkdirLevels mkdirLevels
    simp

/-- Any result of `MTP.mkdir` is `ok true`, `ok false` or an
AttributeError: EINTR (or any `FuseOSError`) is never produced there. -/
theorem mkdir_result_cases (env : MkdirEnv) (r : Nat) :
    MTP.mkdir env r = .ok true ∨ MTP.mkdir env r = .ok false
      ∨ MTP.mkdir env r = .error .attrError := by
  have aux : ∀ s : Nat, s ≠ 0 → MTP.mkdir env s = .ok true
      ∨ MTP.mkdir env s = .ok false
      ∨ MTP.mkdir env s = .error .attrError := by
    intro s hs
    unfold MTP.mkdir
    split_ifs <;> simp_all
  by_cases hr : r = 0
  · subst hr
    unfold MTP.mkdir
    split_ifs <;> first
      | simp
      | exact aux 1 (by decide)
  · exact aux r hr

/-- C2 (amended): the `mkdir` recovery is two-level, not three-level: on a
creation failure whose liveness probe fails, level 0 closes and reopens the
device with a full rescan and retries at level 1; a failure at level 1
gives up, and `MTPFS.mkdir` surfaces the failure as EIO.  EINTR is never
surfaced by `mkdir`, for any outcome environment. -/
theorem c2_mkdir_two_level_recovery_amended (env : MkdirEnv)
    (hentry : env.entryFound = false) (hpf : env.parentFound = true)
    (hpd : env.parentIsDir = true)
    (hcreate : ∀ r, env.createNewId r ≤ 0)
    (hcheck : ∀ r, env.checkOk r = false)
    (hopen : env.reopenOk = true) :
    MTPFS.mkdir env = .error (.fuse EIO)
      ∧ mkdirLevels env 0 = [0, 1]
      ∧ ∀ env' : MkdirEnv, MTPFS.mkdir env' ≠ .error (.fuse EINTR) := by
  refine ⟨?_, ?_, ?_⟩
  · have h1 : MTP.mkdir env 1 = .ok false := by
      unfold MTP.mkdir
      simp [hentry, hpd, hcreate 1, hcheck 1]
    have h0 : MTP.mkdir env 0 = .ok false := by
      unfold MTP.mkdir
      simp [hentry, hpd, hcreate 0, hcheck 0, hopen, h1]
    simp [MTPFS.mkdir, hentry, hpf, hpd, h0]
  · unfold mkdirLevels mkdirLevels
    simp [hentry, hpd, hcreate 0, hcreate 1, hcheck 0, hcheck 1, hopen]
  · intro env'
    unfold MTPFS.mkdir
    rcases mkdir_result_cases env' 0 with h | h | h <;>
      split_ifs <;> simp [h, EEXIST, ENOTDIR, EIO, EINTR]

/-- C2 amended, witness: the amended theorem applied to the concrete
environment in which creation and probe fail at both levels. -/
theorem c2_mkdir_two_level_recovery_amended_witness :
    MTPFS.mkdir ⟨false, true, true, fun _ => -1, fun _ => false, true, true⟩
        = .error (.fuse EIO)
      ∧ mkdirLevels
          ⟨false, true, true, fun _ => -1, fun _ => false, true, true⟩ 0
          = [0, 1] :=
  ⟨(c2_mkdir_two_level_recovery_amended _ rfl rfl rfl
      (fun _ => by norm_num) (fun _ => rfl) rfl).1,
   (c2_mkdir_two_level_recovery_amended _ rfl rfl rfl
      (fun _ => by norm_num) (fun _ => rfl) rfl).2.1⟩

/-- C3 counterexample: renaming the cached directory `/S/d` to `/S/e`
succeeds, both parents are marked `needs_refresh`, and yet the old path
`/S/d` is still a key of the path cache: `rename` removes nothing. -/
theorem c3_rename_counterexample :
    (MTP.rename
        ⟨true, true, true, true, false, false, 0, true, true, 0,
          [], [], [.lookup "/S/e"], []⟩
        "/S/d" "/S" "/S/e" "/S"
        ⟨⟨10, [("/", ()), ("/S", ()), ("/S/d", ())]⟩, false, false⟩).1
        = .ok true
      ∧ (MTP.rename
          ⟨true, true, true, true, false, false, 0, true, true, 0,
            [], [], [.lookup "/S/e"], []⟩
          "/S/d" "/S" "/S/e" "/S"
          ⟨⟨10, [("/", ()), ("/S", ()), ("/S/d", ())]⟩, false,
            false⟩).2.oldParentNeedsRefresh = true
      ∧ (MTP.rename
          ⟨true, true, true, true, false, false, 0, true, true, 0,
            [], [], [.lookup "/S/e"], []⟩
          "/S/d" "/S" "/S/e" "/S"
          ⟨⟨10, [("/", ()), ("/S", ()), ("/S/d", ())]⟩, false,
            false⟩).2.newParentNeedsRefresh = true
      ∧ "/S/d" ∈ odKeys (MTP.rename
          ⟨true, true, true, true, false, false, 0, true, true, 0,
            [], [], [.lookup "/S/e"], []⟩
          "/S/d" "/S" "/S/e" "/S"
          ⟨⟨10, [("/", ()), ("/S", ()), ("/S/d", ())]⟩, false,
            false⟩).2.contents.map := by
  refine ⟨rfl, ?_, ?_, ?_⟩ <;> decide

theorem not_mem_odKeys_odRemove {α β : Type} [DecidableEq α] (k : α)
    (m : List (α × β)) : k ∉ odKeys (odRemove k m) := by
  intro hmem
  obtain ⟨e, he, hk⟩ := List.mem_map.mp hmem
  have h2 := (List.mem_filter.mp he).2
  rw [hk] at h2
  simp at h2

theorem nodup_odKeys_odRemove {α β : Type} [DecidableEq α] (k : α)
    (m : List (α × β)) (h : (odKeys m).Nodup) :
    (odKeys (odRemove k m)).Nodup := by
  have hsub : List.Sublist (odKeys (odRemove k m)) (odKeys m) := by
    simp only [odKeys, odRemove]
    exact (List.filter_sublist m).map Prod.fst
  exact h.sublist hsub

theorem nodup_odKeys_reinsert {α β : Type} [DecidableEq α] (k : α) (v : β)
    (m : List (α × β)) (h : (odKeys m).Nodup) :
    (odKeys (odRemove k m ++ [(k, v)])).Nodup := by
  have heq : odKeys (odRemove k m ++ [(k, v)])
      = odKeys (odRemove k m) ++ [k] := by
    simp [odKeys]
  rw [heq]
  refine (nodup_odKeys_odRemove k m h).append (List.nodup_singleton k) ?_
  intro a ha hb
  rw [List.mem_singleton] at hb
  rw [hb] at ha
  exact not_mem_odKeys_odRemove k m ha

/-- What a successful `LRU.__getitem__` returns: the value found by lookup
and the cache with that binding re-appended as most recently used. -/
theorem getitem_some_spec {α β : Type} [DecidableEq α] (c : LRU α β)
    (k : α) (v : β) (c' : LRU α β) (h : c.getitem k = some (v, c')) :
    c'.map = odRemove k c.map ++ [(k, v)] ∧ c'.size = c.size
      ∧ odLookup k c.map = some v := by
  unfold LRU.getitem at h
  cases hl : odLookup k c.map with
  | none => rw [hl] at h; exact absurd h (by simp)
  | some w =>
    rw [hl] at h
    simp only [Option.some.injEq, Prod.mk.injEq] at h
    obtain ⟨h1, h2⟩ := h
    subst h1
    subst h2
    exact ⟨rfl, rfl, rfl⟩

theorem odLookup_isSome_of_mem {α β : Type} [DecidableEq α] (k : α)
    (m : List (α × β)) (h : k ∈ odKeys m) : ∃ v, odLookup k m = some v := by
  obtain ⟨e, he, hk⟩ := List.mem_map.mp h
  have hfind : (m.find? (fun x => x.1 = k)).isSome :=
    List.find?_isSome.mpr ⟨e, he, by simp [hk]⟩
  obtain ⟨x, hx⟩ := Option.isSome_iff_exists.mp hfind
  exact ⟨x.2, by simp [odLookup, hx]⟩

theorem getitem_isSome_of_mem {α β : Type} [DecidableEq α] (c : LRU α β)
    (k : α) (h : k ∈ odKeys c.map) :
    ∃ v c', c.getitem k = some (v, c') := by
  obtain ⟨v, hv⟩ := odLookup_isSome_of_mem k c.map h
  refine ⟨v, ⟨c.size, odRemove k c.map ++ [(k, v)]⟩, ?_⟩
  unfold LRU.getitem
  rw [hv]

/-- A cache hit preserves the key set (the key is merely re-appended). -/
theorem odKeys_getitem_iff {α β : Type} [DecidableEq α] (c : LRU α β)
    (k : α) (v : β) (c' : LRU α β) (h : c.getitem k = some (v, c'))
    (p : α) : p ∈ odKeys c'.map ↔ p ∈ odKeys c.map := by
  obtain ⟨hmap, _, hl⟩ := getitem_some_spec c k v c' h
  have hmem : k ∈ odKeys c.map := mem_odKeys_of_odLookup k c.map v hl
  rw [hmap]
  exact mem_odKeys_after_reinsert k p v c.map hmem

theorem length_getitem_hit {α β : Type} [DecidableEq α] (c : LRU α β)
    (k : α) (v : β) (c' : LRU α β) (hnd : (odKeys c.map).Nodup)
    (h : c.getitem k = some (v, c')) : c'.map.length = c.map.length := by
  obtain ⟨hmap, _, hl⟩ := getitem_some_spec c k v c' h
  have hmem := mem_odKeys_of_odLookup k c.map v hl
  have := odRemove_length_of_nodup k c.map hnd hmem
  rw [hmap]
  simp only [List.length_append, List.length_cons, List.length_nil]
  omega

theorem nodup_getitem {α β : Type} [DecidableEq α] (c : LRU α β) (k : α)
    (v : β) (c' : LRU α β) (hnd : (odKeys c.map).Nodup)
    (h : c.getitem k = some (v, c')) : (odKeys c'.map).Nodup := by
  obtain ⟨hmap, _, _⟩ := getitem_some_spec c k v c' h
  rw [hmap]
  exact nodup_odKeys_reinsert k v c.map hnd

/-- An `LRU.__setitem__` never shrinks the cache: a present key is
re-bound, a full cache trades the evicted head for the new binding, and
otherwise the binding is appended. -/
theorem length_le_setitem {α β : Type} [DecidableEq α] (c : LRU α β)
    (k : α) (v : β) (hnd : (odKeys c.map).Nodup) :
    c.map.length ≤ (c.setitem k v).map.length := by
  unfold LRU.setitem
  by_cases hm : k ∈ odKeys c.map
  · rw [if_pos hm]
    have := odRemove_length_of_nodup k c.map hnd hm
    show c.map.length ≤ (odRemove k c.map ++ [(k, v)]).length
    simp only [List.length_append, List.length_cons, List.length_nil]
    omega
  · rw [if_neg hm]
    by_cases hfull : c.size ≤ c.map.length
    · rw [if_pos hfull]
      show c.map.length ≤ (c.map.drop 1 ++ [(k, v)]).length
      simp only [List.length_append, List.length_drop, List.length_cons,
        List.length_nil]
      omega
    · rw [if_neg hfull]
      show c.map.length ≤ (c.map ++ [(k, v)]).length
      simp only [List.length_append, List.length_cons, List.length_nil]
      omega

theorem nodup_setitem {α β : Type} [DecidableEq α] (c : LRU α β) (k : α)
    (v : β) (hnd : (odKeys c.map).Nodup) :
    (odKeys (c.setitem k v).map).Nodup := by
  unfold LRU.setitem
  by_cases hm : k ∈ odKeys c.map
  · rw [if_pos hm]
    exact nodup_odKeys_reinsert k v c.map hnd
  · rw [if_neg hm]
    by_cases hfull : c.size ≤ c.map.length
    · rw [if_pos hfull]
      show (odKeys (c.map.drop 1 ++ [(k, v)])).Nodup
      have heq : odKeys (c.map.drop 1 ++ [(k, v)])
          = odKeys (c.map.drop 1) ++ [k] := by
        simp [odKeys]
      rw [heq]
      have hsub : List.Sublist (odKeys (c.map.drop 1)) (odKeys c.map) := by
        simp only [odKeys]
        exact (List.drop_sublist 1 c.map).map Prod.fst
      refine (hnd.sublist hsub).append (List.nodup_singleton k) ?_
      intro a ha hb
      rw [List.mem_singleton] at hb
      subst hb
      exact hm (hsub.subset ha)
    · rw [if_neg hfull]
      show (odKeys (c.map ++ [(k, v)])).Nodup
      have heq : odKeys (c.map ++ [(k, v)]) = odKeys c.map ++ [k] := by
        simp [odKeys]
      rw [heq]
      refine hnd.append (List.nodup_singleton k) ?_
      intro a ha hb
      rw [List.mem_singleton] at hb
      subst hb
      exact hm ha

/-- One walk operation keeps the keys duplicate-free and never shrinks the
cache (a lookup reorders, an insertion re-binds, appends, or trades the
evicted head for the new binding). -/
theorem walkOp_spec (c : LRU String Unit) (op : WalkOp)
    (hnd : (odKeys c.map).Nodup) :
    (odKeys (applyWalkOp c op).map).Nodup
      ∧ c.map.length ≤ (applyWalkOp c op).map.length := by
  cases op with
  | lookup p =>
    simp only [applyWalkOp]
    cases hg : c.getitem p with
    | none => exact ⟨hnd, le_refl _⟩
    | some vc =>
      obtain ⟨v, c'⟩ := vc
      exact ⟨nodup_getitem c p v c' hnd hg,
        (length_getitem_hit c p v c' hnd hg).symm.le⟩
  | insert p =>
    simp only [applyWalkOp]
    exact ⟨nodup_setitem c p () hnd, length_le_setitem c p () hnd⟩

/-- A whole miss-walk keeps the keys duplicate-free and never shrinks the
cache: it consists of lookups and insertions only — no removal. -/
theorem walkOps_spec (ops : List WalkOp) :
    ∀ c : LRU String Unit, (odKeys c.map).Nodup →
      (odKeys (applyWalkOps c ops).map).Nodup
        ∧ c.map.length ≤ (applyWalkOps c ops).map.length := by
  induction ops with
  | nil => exact fun c hnd => ⟨hnd, le_refl _⟩
  | cons op ops ih =>
    intro c hnd
    have h1 := walkOp_spec c op hnd
    have h2 := ih (applyWalkOp c op) h1.1
    exact ⟨h2.1, le_trans h1.2 h2.2⟩

/-- One `get_path` lookup keeps the keys duplicate-free and never shrinks
the cache. -/
theorem getPathCacheEffect_spec (walk : List WalkOp) (path : String)
    (c : LRU String Unit) (hnd : (odKeys c.map).Nodup) :
    (odKeys (getPathCacheEffect walk path c).map).Nodup
      ∧ c.map.length ≤ (getPathCacheEffect walk path c).map.length := by
  unfold getPathCacheEffect
  cases hg : c.getitem path with
  | none => exact walkOps_spec walk c hnd
  | some vc =>
    obtain ⟨v, c'⟩ := vc
    exact ⟨nodup_getitem c path v c' hnd hg,
      (length_getitem_hit c path v c' hnd hg).symm.le⟩

/-- A `get_path` lookup that hits the cache preserves the key set
exactly. -/
theorem getPathCacheEffect_hit_keys (walk : List WalkOp) (path : String)
    (c : LRU String Unit) (hmem : path ∈ odKeys c.map) (p : String) :
    p ∈ odKeys (getPathCacheEffect walk path c).map ↔ p ∈ odKeys c.map := by
  obtain ⟨v, c', hg⟩ := getitem_isSome_of_mem c path hmem
  unfold getPathCacheEffect
  rw [hg]
  exact odKeys_getitem_iff c path v c' hg p

/-- C3 (amended): after a successful `rename(old, new)` whose parent
lookups resolve to directories, both the old and the new parent folder are
marked `needs_refresh` — and the old path is not REMOVED from the path
cache: `rename` performs no cache removal, so the cache never shrinks
across the call (its only cache effects are the four `get_path` lookups,
whose miss-walk insertions can at most trade the least-recently-used key
for the inserted one at capacity); in particular, when all four looked-up
paths are already cached, the key set is exactly preserved and the old
path in particular is still cached afterwards. -/
theorem c3_rename_marks_parents_amended (env : RenameEnv)
    (oldpath olddir newpath newdir : String) (st : RenameState)
    (hod : env.oldDirFound = true) (hodd : env.oldDirIsDir = true)
    (hnd : env.newDirFound = true) (hndd : env.newDirIsDir = true)
    (hnodup : (odKeys st.contents.map).Nodup)
    (hok : (MTP.rename env oldpath olddir newpath newdir st).1 = .ok true) :
    (MTP.rename env oldpath olddir newpath newdir st).2.oldParentNeedsRefresh
        = true
      ∧ (MTP.rename env oldpath olddir newpath newdir
          st).2.newParentNeedsRefresh = true
      ∧ st.contents.map.length
          ≤ (MTP.rename env oldpath olddir newpath newdir
              st).2.contents.map.length
      ∧ (oldpath ∈ odKeys st.contents.map →
          olddir ∈ odKeys st.contents.map →
          newpath ∈ odKeys st.contents.map →
          newdir ∈ odKeys st.contents.map →
          (∀ p, p ∈ odKeys (MTP.rename env oldpath olddir newpath newdir
                st).2.contents.map
              ↔ p ∈ odKeys st.contents.map)
            ∧ oldpath ∈ odKeys (MTP.rename env oldpath olddir newpath newdir
                st).2.contents.map) := by
  by_cases h1 : env.oldFound = false
  · exfalso
    unfold MTP.rename at hok
    rw [if_pos h1] at hok
    exact absurd hok (by simp)
  by_cases h2 : env.newFound = true ∧ env.newIsDir = true ∧ 0 < env.newCount
  · exfalso
    unfold MTP.rename at hok
    rw [if_neg h1, if_pos h2] at hok
    exact absurd hok (by simp)
  refine ⟨?_, ?_, ?_, ?_⟩
  · unfold MTP.rename
    rw [if_neg h1, if_neg h2]
    simp [hod, hodd]
  · unfold MTP.rename
    rw [if_neg h1, if_neg h2]
    simp [hnd, hndd]
  · unfold MTP.rename
    rw [if_neg h1, if_neg h2]
    dsimp only
    have s1 := getPathCacheEffect_spec env.walkOld oldpath st.contents hnodup
    have s2 := getPathCacheEffect_spec env.walkOldDir olddir _ s1.1
    have s3 := getPathCacheEffect_spec env.walkNew newpath _ s2.1
    have s4 := getPathCacheEffect_spec env.walkNewDir newdir _ s3.1
    exact le_trans s1.2 (le_trans s2.2 (le_trans s3.2 s4.2))
  · unfold MTP.rename
    rw [if_neg h1, if_neg h2]
    dsimp only
    intro m1 m2 m3 m4
    have k1 := getPathCacheEffect_hit_keys env.walkOld oldpath st.contents m1
    have k2 := getPathCacheEffect_hit_keys env.walkOldDir olddir _
      ((k1 olddir).mpr m2)
    have k3 := getPathCacheEffect_hit_keys env.walkNew newpath _
      ((k2 newpath).mpr ((k1 newpath).mpr m3))
    have k4 := getPathCacheEffect_hit_keys env.walkNewDir newdir _
      ((k3 newdir).mpr ((k2 newdir).mpr ((k1 newdir).mpr m4)))
    refine ⟨fun p => (k4 p).trans ((k3 p).trans ((k2 p).trans (k1 p))), ?_⟩
    exact (k4 oldpath).mpr ((k3 oldpath).mpr ((k2 oldpath).mpr
      ((k1 oldpath).mpr m1)))

/-- C3 amended, witness: the amended theorem applied to a concrete
successful rename of the cached directory `/S/d` over an existing cached
file target `/S/e`, with all four lookups hitting the cache. -/
theorem c3_rename_marks_parents_amended_witness :
    (MTP.rename
        ⟨true, true, true, true, true, false, 0, true, true, 0,
          [], [], [], []⟩
        "/S/d" "/S" "/S/e" "/S"
        ⟨⟨10, [("/S", ()), ("/S/d", ()), ("/S/e", ())]⟩, false,
          false⟩).2.oldParentNeedsRefresh = true
      ∧ (MTP.rename
          ⟨true, true, true, true, true, false, 0, true, true, 0,
            [], [], [], []⟩
          "/S/d" "/S" "/S/e" "/S"
          ⟨⟨10, [("/S", ()), ("/S/d", ()), ("/S/e", ())]⟩, false,
            false⟩).2.newParentNeedsRefresh = true
      ∧ 3 ≤ (MTP.rename
          ⟨true, true, true, true, true, false, 0, true, true, 0,
            [], [], [], []⟩
          "/S/d" "/S" "/S/e" "/S"
          ⟨⟨10, [("/S", ()), ("/S/d", ()), ("/S/e", ())]⟩, false,
            false⟩).2.contents.map.length
      ∧ "/S/d" ∈ odKeys (MTP.rename
          ⟨true, true, true, true, true, false, 0, true, true, 0,
            [], [], [], []⟩
          "/S/d" "/S" "/S/e" "/S"
          ⟨⟨10, [("/S", ()), ("/S/d", ()), ("/S/e", ())]⟩, false,
            false⟩).2.contents.map :=
  let T := c3_rename_marks_parents_amended
    ⟨true, true, true, true, true, false, 0, true, true, 0, [], [], [], []⟩
    "/S/d" "/S" "/S/e" "/S"
    ⟨⟨10, [("/S", ()), ("/S/d", ()), ("/S/e", ())]⟩, false, false⟩
    rfl rfl rfl rfl (by decide) rfl
  ⟨T.1, T.2.1, T.2.2.1,
   (T.2.2.2 (by decide) (by decide) (by decide) (by decide)).2⟩

/-- The `retries` counter of the read loop never exceeds 3 (it enters at
most at 2 and each entry increments it at most once before the `> 2`
break). -/
theorem readLoop_retries_le (env : ReadCallEnv) (size : Nat) :
    ∀ (data : List Nat) (retries attempt : Nat), retries ≤ 2 →
      (readLoop env size data retries attempt).2 ≤ 3 := by
  intro data retries attempt
  induction data, retries, attempt using readLoop.induct env size with
  | case1 data retries attempt hlt hz hbreak =>
    intro h
    unfold readLoop
    simp [hlt, hz, hbreak]
    omega
  | case2 data retries attempt hlt hz hbreak ih =>
    intro h
    unfold readLoop
    simp [hlt, hz, hbreak]
    exact ih (by omega)
  | case3 data retries attempt hlt hz ih =>
    intro h
    unfold readLoop
    simp [hlt, hz]
    exact ih h
  | case4 data retries attempt hge =>
    intro h
    unfold readLoop
    simp [hge]
    omega

/-- C7: on a valid open handle, `read` returns the loop's accumulated data
with no error — a short read never raises — and the loop's zero-byte-read
counter ends at most at 3: after the first zero-byte result, at most two
further reads are issued in response to a zero-byte result before the data
read so far is returned. -/
theorem c7_short_read_retries (env : ReadCallEnv) (size : Nat)
    (hfh : env.fhPresent = true) :
    MTPFS.read env size = .ok (readLoop env size (env.chunk 0) 0 1).1
      ∧ (∃ d, MTPFS.read env size = .ok d)
      ∧ (readLoop env size (env.chunk 0) 0 1).2 ≤ 3 := by
  refine ⟨?_, ?_, readLoop_retries_le env size _ 0 1 (by omega)⟩
  · unfold MTPFS.read
    simp [hfh]
  · refine ⟨(readLoop env size (env.chunk 0) 0 1).1, ?_⟩
    unfold MTPFS.read
    simp [hfh]

/-- C7 witness: a handle whose scratch file yields two bytes and then only
zero-byte reads: `read 5` returns the two bytes (no error) after exactly
three zero-byte reads (two of them issued in response to a zero-byte
result). -/
theorem c7_short_read_retries_witness :
    MTPFS.read ⟨true, fun i => if i = 0 then [7, 7] else []⟩ 5
        = .ok (readLoop ⟨true, fun i => if i = 0 then [7, 7] else []⟩ 5
            [7, 7] 0 1).1
      ∧ (readLoop ⟨true, fun i => if i = 0 then [7, 7] else []⟩ 5
          [7, 7] 0 1).2 ≤ 3 :=
  ⟨(c7_short_read_retries ⟨true, fun i => if i = 0 then [7, 7] else []⟩ 5
      rfl).1,
   (c7_short_read_retries ⟨true, fun i => if i = 0 then [7, 7] else []⟩ 5
      rfl).2.2⟩

/-- C8: releasing a handle that is not in the open-handle table does NOT
fail with EBADF: the `raise FuseOSError(EBADF)` is clobbered by the
AttributeError that `openfile.path` (with `openfile = None`) raises in the
`finally` block. -/
theorem c8_release_unknown_fh_attrerror :
    (MTPFS.release ⟨0⟩ [] [] "/S/f" 42).1 = .error .attrError
      ∧ (MTPFS.release ⟨0⟩ [] [] "/S/f" 42).1 ≠ .error (.fuse EBADF) := by
  refine ⟨rfl, ?_⟩
  rw [show (MTPFS.release ⟨0⟩ [] [] "/S/f" 42).1 = .error .attrError from rfl]
  simp

/-- C10: for every handle present in the open-handle table, `release`
removes that handle's scratch file — whether the handle is read-only, or
writable with the upload succeeding, or writable with the upload failing
(the `finally` block runs in every case). -/
theorem c10_release_removes_scratch (env : ReleaseEnv)
    (openfiles : List (Nat × OpenFile)) (created : List String)
    (path : String) (fh : Nat) (f : OpenFile)
    (hf : odLookup fh openfiles = some f) :
    f.path ∈ (MTPFS.release env openfiles created path fh).2.1 := by
  unfold MTPFS.release
  rw [hf]
  simp

/-- C10 witness: the theorem applied to a writable handle whose upload
fails (copy_to returns EIO) — the scratch file is still removed. -/
theorem c10_release_removes_scratch_witness :
    "/tmp/pymtpfs0/x.tmp" ∈ (MTPFS.release ⟨5⟩
        [(3, ⟨3, "/tmp/pymtpfs0/x.tmp", "/S/x", false⟩)] [] "/S/x" 3).2.1 :=
  c10_release_removes_scratch ⟨5⟩
    [(3, ⟨3, "/tmp/pymtpfs0/x.tmp", "/S/x", false⟩)] [] "/S/x" 3
    ⟨3, "/tmp/pymtpfs0/x.tmp", "/S/x", false⟩ rfl

end Pymtpfs
